import Mathlib

/-!
Verification of the `k8s_cross` CoreDNS plugin (clusterset query engine).

The definitions below are a shallow embedding of the Go source in
`k8s_cross.go` and `setup.go`: zone matching (`isClustersetQuery`),
domain parsing (`parseClusterSetDomain`), endpoint resolution
(`findServiceNodes`), record synthesis (`buildARecords`, `buildAAAARecords`,
`buildSRVRecords`, `buildTXTRecords`) and the orchestration
(`handleClustersetQuery`, `serveDNS`).  Go strings are Lean `String`s,
machine integers are `Nat`, fallible calls return `Except`/`Option`, and the
external inventory call and the response-writer outcome are passed in as
explicit inputs.  The Go standard-library helpers the source calls
(`strings.HasSuffix`, `strings.TrimSuffix`, `strings.Split`,
`strings.Contains`, `strings.ToLower`, `net.ParseIP`, `IP.To4`) are
modelled by matching Lean functions over `String.data`.
-/

namespace K8sCrossSpec

/-! ### DNS protocol constants (from github.com/miekg/dns) -/

/-- DNS response code `RcodeSuccess` (NOERROR). -/
def RcodeSuccess : Nat := 0

/-- DNS response code `RcodeServerFailure` (SERVFAIL). -/
def RcodeServerFailure : Nat := 2

/-- DNS response code `RcodeNameError` (NXDOMAIN). -/
def RcodeNameError : Nat := 3

/-- DNS record type `TypeA`. -/
def TypeA : Nat := 1

/-- DNS record type `TypeTXT`. -/
def TypeTXT : Nat := 16

/-- DNS record type `TypeAAAA`. -/
def TypeAAAA : Nat := 28

/-- DNS record type `TypeSRV`. -/
def TypeSRV : Nat := 33

/-- DNS class `ClassINET`. -/
def ClassINET : Nat := 1

/-! ### String helpers modelling the Go `strings` package -/

/-- Does the first character list begin with the second?  Models the
prefix test underlying Go `strings.Contains`. -/
def strStartsAt : List Char → List Char → Bool
  | _, [] => true
  | [], _ :: _ => false
  | a :: as, b :: bs => if a = b then strStartsAt as bs else false

/-- Does `sub` occur contiguously inside `l`?  Models Go
`strings.Contains` on the underlying character lists. -/
def charsContain (sub : List Char) : List Char → Bool
  | [] => strStartsAt [] sub
  | c :: rest => strStartsAt (c :: rest) sub || charsContain sub rest

/-- Models Go `strings.Contains s sub`. -/
def strContains (s sub : String) : Bool :=
  charsContain sub.data s.data

/-- Models Go `strings.HasSuffix s t`:
`len(s) >= len(t) && s[len(s)-len(t):] == t`. -/
def hasSuffix (s t : String) : Bool :=
  decide (t.data.length ≤ s.data.length ∧
    s.data.drop (s.data.length - t.data.length) = t.data)

/-- Models Go `strings.TrimSuffix s t`: drops one copy of the suffix
`t` when present, otherwise returns `s` unchanged. -/
def trimSuffix (s t : String) : String :=
  if hasSuffix s t then String.mk (s.data.take (s.data.length - t.data.length)) else s

/-- Splits a character list at every occurrence of `c`.  Models Go
`strings.Split` with a single-character separator: splitting the empty
string yields one empty field. -/
def splitOnChar (c : Char) : List Char → List (List Char)
  | [] => [[]]
  | x :: xs =>
    if x = c then [] :: splitOnChar c xs
    else
      match splitOnChar c xs with
      | [] => [[x]]
      | g :: gs => (x :: g) :: gs

/-- Models Go `strings.ToLower` (ASCII case folding, per character). -/
def strToLower (s : String) : String :=
  String.mk (s.data.map Char.toLower)

/-! ### Model of the Go standard library `net.ParseIP` / `IP.To4`

A parsed IP is a byte list (`List Nat`, each entry < 256): 16 bytes for
any address accepted by `net.ParseIP` (Go returns dotted-quad IPv4 in
the 4-in-6 16-byte form), following the Go `net`/`netip` parser:
the first `.` or `:` in the string selects the IPv4 or IPv6 grammar. -/

/-- Decimal digit value. -/
def decVal (c : Char) : Option Nat :=
  if '0' ≤ c ∧ c ≤ '9' then some (c.toNat - '0'.toNat) else none

/-- Hexadecimal digit value. -/
def hexVal (c : Char) : Option Nat :=
  if '0' ≤ c ∧ c ≤ '9' then some (c.toNat - '0'.toNat)
  else if 'a' ≤ c ∧ c ≤ 'f' then some (c.toNat - 'a'.toNat + 10)
  else if 'A' ≤ c ∧ c ≤ 'F' then some (c.toNat - 'A'.toNat + 10)
  else none

/-- Parses one IPv4 field: 1-3 decimal digits, value at most 255, no
leading zero on a multi-digit field (Go 1.17+ rejects those). -/
def parseDecOctet (g : List Char) : Option Nat :=
  match g.mapM decVal with
  | none => none
  | some ds =>
    if ds.length = 0 ∨ 3 < ds.length then none
    else if 1 < ds.length ∧ g.getD 0 '0' = '0' then none
    else
      let v := ds.foldl (fun acc d => acc * 10 + d) 0
      if v ≤ 255 then some v else none

/-- Parses a dotted-quad IPv4 address into its four bytes. -/
def parseV4CharsBytes (l : List Char) : Option (List Nat) :=
  match splitOnChar '.' l with
  | [a, b, c, d] =>
    match parseDecOctet a, parseDecOctet b, parseDecOctet c, parseDecOctet d with
    | some x, some y, some z, some w => some [x, y, z, w]
    | _, _, _, _ => none
  | _ => none

/-- Parses one IPv6 group: 1-4 hex digits. -/
def parseHexGroup (g : List Char) : Option Nat :=
  match g.mapM hexVal with
  | none => none
  | some ds =>
    if ds.length = 0 ∨ 4 < ds.length then none
    else some (ds.foldl (fun acc d => acc * 16 + d) 0)

/-- Parses a run of hex-only IPv6 groups into bytes (two per group). -/
def parseHexGroups : List (List Char) → Option (List Nat)
  | [] => some []
  | g :: rest =>
    match parseHexGroup g, parseHexGroups rest with
    | some w, some bs => some (w / 256 :: w % 256 :: bs)
    | _, _ => none

/-- Parses a run of IPv6 groups where the final group may instead be an
embedded dotted-quad IPv4 address (as Go allows in last position). -/
def parseTailGroups : List (List Char) → Option (List Nat)
  | [] => some []
  | [g] =>
    if g.contains '.' then parseV4CharsBytes g
    else (parseHexGroup g).map (fun w => [w / 256, w % 256])
  | g :: rest =>
    match parseHexGroup g, parseTailGroups rest with
    | some w, some bs => some (w / 256 :: w % 256 :: bs)
    | _, _ => none

/-- Are all groups non-empty? -/
def noEmpties (gs : List (List Char)) : Bool :=
  gs.all (fun g => !g.isEmpty)

/-- Splits a group list at its first empty group (the location of a
`::` marker), returning the groups before and after it. -/
def splitAtEmpty : List (List Char) → Option (List (List Char) × List (List Char))
  | [] => none
  | g :: rest =>
    if g.isEmpty then some ([], rest)
    else
      match splitAtEmpty rest with
      | some (f, b) => some (g :: f, b)
      | none => none

/-- Parses an IPv6 address (RFC 4291 text forms, one optional `::`,
optional embedded IPv4 tail) into its 16 bytes. -/
def parseV6Chars (l : List Char) : Option (List Nat) :=
  match splitOnChar ':' l with
  | [[], [], []] => some (List.replicate 16 0)
  | [] :: [] :: rest =>
    if rest.isEmpty then none
    else if noEmpties rest then
      match parseTailGroups rest with
      | some bs => if bs.length ≤ 14 then some (List.replicate (16 - bs.length) 0 ++ bs) else none
      | none => none
    else none
  | gs =>
    match splitAtEmpty gs with
    | none =>
      match parseTailGroups gs with
      | some bs => if bs.length = 16 then some bs else none
      | none => none
    | some (front, back) =>
      if front.isEmpty then none
      else
        match back with
        | [] => none
        | [[]] =>
          match parseHexGroups front with
          | some bs => if bs.length ≤ 14 then some (bs ++ List.replicate (16 - bs.length) 0) else none
          | none => none
        | _ =>
          if noEmpties back then
            match parseHexGroups front, parseTailGroups back with
            | some bf, some bb =>
              if bf.length + bb.length ≤ 14 then
                some (bf ++ List.replicate (16 - bf.length - bb.length) 0 ++ bb)
              else none
            | _, _ => none
          else none

/-- First `.` or `:` in a character list; decides which grammar Go
`net.ParseIP` uses. -/
def firstSep : List Char → Option Char
  | [] => none
  | c :: rest => if c = '.' ∨ c = ':' then some c else firstSep rest

/-- The 12-byte prefix Go uses to store an IPv4 address in 16 bytes. -/
def v4InV6Pre : List Nat := [0, 0, 0, 0, 0, 0, 0, 0, 0, 0, 255, 255]

/-- Models Go `net.ParseIP`: `none` when the string is not a valid
IPv4 or IPv6 address, otherwise 16 parsed bytes. -/
def parseIP (s : String) : Option (List Nat) :=
  match firstSep s.data with
  | none => none
  | some c =>
    if c = '.' then
      match parseV4CharsBytes s.data with
      | some bs => some (v4InV6Pre ++ bs)
      | none => none
    else parseV6Chars s.data

/-- Models Go `IP.To4`: the 4-byte form of an address when present. -/
def ipTo4 (ip : List Nat) : Option (List Nat) :=
  if ip.length = 4 then some ip
  else if ip.length = 16 ∧ ip.take 10 = List.replicate 10 0 ∧
      ip.getD 10 0 = 255 ∧ ip.getD 11 0 = 255 then
    some (ip.drop 12)
  else none

/-! ### Data model (from `k8s_cross.go` and `headscale/client.go`) -/

/-- A Headscale node; only the fields the query path consumes are kept
(`ID` for identification in examples, `Name` and `IPAddresses`). -/
structure Node where
  ID : String
  Name : String
  IPAddresses : List String
deriving DecidableEq, Repr

/-- Plugin configuration from the `K8sCross` struct; the inventory
client handle and the handler chain are modelled as explicit inputs to
the functions that use them. -/
structure K8sCross where
  Zones : List String
  TTL : Nat
  ClusterName : String
  ClusterSet : String
deriving DecidableEq, Repr

/-- A DNS resource-record header (`dns.RR_Header`). -/
structure RRHeader where
  Name : String
  Rrtype : Nat
  Rclass : Nat
  Ttl : Nat
deriving DecidableEq, Repr

/-- A synthesized DNS resource record (`dns.A`, `dns.AAAA`, `dns.SRV`,
`dns.TXT`). -/
inductive RR where
  | a (hdr : RRHeader) (ip : List Nat)
  | aaaa (hdr : RRHeader) (ip : List Nat)
  | srv (hdr : RRHeader) (priority weight port : Nat) (target : String)
  | txt (hdr : RRHeader) (txt : List String)
deriving DecidableEq, Repr

/-- The header of a record. -/
def rrHeader : RR → RRHeader
  | .a hdr _ => hdr
  | .aaaa hdr _ => hdr
  | .srv hdr _ _ _ _ => hdr
  | .txt hdr _ => hdr

/-- The observable parts of the response message the engine builds
(`dns.Msg` after `SetReply` / `Authoritative = true`): response code
and answer section. -/
structure DnsMsg where
  Rcode : Nat
  Authoritative : Bool
  Answer : List RR
deriving DecidableEq, Repr

/-- One entry of a request's question section (`dns.Question`). -/
structure DnsQuestion where
  Name : String
  Qtype : Nat
deriving DecidableEq, Repr

/-! ### Core definitions from `k8s_cross.go` -/

/-- From `K8sCross.isClustersetQuery`: true when some configured zone
`z` makes `"." + z + "."` a suffix of the name. -/
def isClustersetQuery (e : K8sCross) (name : String) : Bool :=
  e.Zones.any (fun zone => hasSuffix name ("." ++ zone ++ "."))

/-- The tail of `K8sCross.parseClusterSetDomain` after splitting into
labels (the source inlines this on the split result): reject fewer
than five labels or a wrong `svc.clusterset.local` suffix, else read
namespace and service fourth and fifth from the end. -/
def parsePartsCore (parts : List String) : String × String × Bool :=
  if parts.length < 5 then ("", "", false)
  else if parts.getD (parts.length - 1) "" ≠ "local" ∨
      parts.getD (parts.length - 2) "" ≠ "clusterset" ∨
      parts.getD (parts.length - 3) "" ≠ "svc" then ("", "", false)
  else (parts.getD (parts.length - 5) "", parts.getD (parts.length - 4) "", true)

/-- From `K8sCross.parseClusterSetDomain`: strip one trailing dot,
split on `.`, and extract `(service, namespace, valid)`. -/
def parseClusterSetDomain (name : String) : String × String × Bool :=
  parsePartsCore ((splitOnChar '.' (trimSuffix name ".").data).map String.mk)

/-- From `K8sCross.findServiceNodes`: the inventory call's outcome is
the explicit `listResult` input; on success the nodes whose case-folded
name contains both case-folded identity strings are kept in order. -/
def findServiceNodes (listResult : Except String (List Node))
    (service ns : String) : Except String (List Node) :=
  match listResult with
  | .error err => .error err
  | .ok nodes =>
    .ok (nodes.filter (fun node =>
      strContains (strToLower node.Name) (strToLower service) &&
      strContains (strToLower node.Name) (strToLower ns)))

/-- The owner name `fmt.Sprintf("%s.%s.svc.clusterset.local.", service, namespace)`
used by every record builder. -/
def ownerName (service ns : String) : String :=
  service ++ "." ++ ns ++ ".svc.clusterset.local."

/-- From `K8sCross.buildARecords`: one A record per address across all
nodes whose parsed IP has a 4-byte form. -/
def buildARecords (e : K8sCross) (nodes : List Node) (service ns : String) : List RR :=
  nodes.flatMap (fun node =>
    node.IPAddresses.filterMap (fun ipStr =>
      match parseIP ipStr with
      | none => none
      | some ip =>
        if (ipTo4 ip).isSome then
          some (RR.a ⟨ownerName service ns, TypeA, ClassINET, e.TTL⟩ ip)
        else none))

/-- From `K8sCross.buildAAAARecords`: one AAAA record per address
across all nodes whose parsed IP has no 4-byte form. -/
def buildAAAARecords (e : K8sCross) (nodes : List Node) (service ns : String) : List RR :=
  nodes.flatMap (fun node =>
    node.IPAddresses.filterMap (fun ipStr =>
      match parseIP ipStr with
      | none => none
      | some ip =>
        if (ipTo4 ip).isSome then none
        else some (RR.aaaa ⟨ownerName service ns, TypeAAAA, ClassINET, e.TTL⟩ ip)))

/-- From `K8sCross.buildSRVRecords`: one fixed SRV record when the node
list is non-empty. -/
def buildSRVRecords (e : K8sCross) (nodes : List Node) (service ns : String) : List RR :=
  if nodes.length > 0 then
    [RR.srv ⟨"_http._tcp." ++ ownerName service ns, TypeSRV, ClassINET, e.TTL⟩
      10 10 80 (ownerName service ns)]
  else []

/-- From `K8sCross.buildTXTRecords`: one TXT record with four
`key=value` strings when the node list is non-empty. -/
def buildTXTRecords (e : K8sCross) (nodes : List Node) (service ns : String) : List RR :=
  if nodes.length > 0 then
    [RR.txt ⟨ownerName service ns, TypeTXT, ClassINET, e.TTL⟩
      ["cluster=" ++ e.ClusterName, "clusterset=" ++ e.ClusterSet,
       "service=" ++ service, "namespace=" ++ ns]]
  else []

/-- From `K8sCross.handleClustersetQuery`: builds the response message
and the error value returned to `ServeDNS`.  The result of the
inventory call inside `findServiceNodes` is the `listResult` input. -/
def handleClustersetQuery (e : K8sCross) (listResult : Except String (List Node))
    (qName : String) (qType : Nat) : DnsMsg × Option String :=
  let resp0 : DnsMsg := { Rcode := RcodeSuccess, Authoritative := true, Answer := [] }
  let qn := strToLower qName
  let p := parseClusterSetDomain qn
  let service := p.1
  let ns := p.2.1
  let isValid := p.2.2
  if !isValid then ({ resp0 with Rcode := RcodeNameError }, none)
  else
    match findServiceNodes listResult service ns with
    | .error _ => ({ resp0 with Rcode := RcodeServerFailure }, none)
    | .ok nodes =>
      if qType = TypeA then ({ resp0 with Answer := buildARecords e nodes service ns }, none)
      else if qType = TypeAAAA then ({ resp0 with Answer := buildAAAARecords e nodes service ns }, none)
      else if qType = TypeSRV then ({ resp0 with Answer := buildSRVRecords e nodes service ns }, none)
      else if qType = TypeTXT then ({ resp0 with Answer := buildTXTRecords e nodes service ns }, none)
      else (resp0, none)

/-- Outcome of `K8sCross.ServeDNS` for one question: either delegated
to the next handler in the chain, or handled with the message passed to
the response writer, the returned response code, and the returned error
value. -/
inductive ServeResult where
  | delegated
  | handled (written : Option DnsMsg) (rcode : Nat) (err : Option String)
deriving DecidableEq, Repr

/-- From `K8sCross.ServeDNS`, given one question: the inventory call's
outcome and the response writer's outcome (`none` = write succeeded)
are explicit inputs. -/
def serveDNS (e : K8sCross) (listResult : Except String (List Node))
    (writeResult : Option String) (qName : String) (qType : Nat) : ServeResult :=
  let qn := strToLower qName
  if !isClustersetQuery e qn then ServeResult.delegated
  else
    let r := handleClustersetQuery e listResult qName qType
    match r.2 with
    | some m => ServeResult.handled none RcodeServerFailure (some m)
    | none =>
      match writeResult with
      | some m => ServeResult.handled (some r.1) RcodeServerFailure (some m)
      | none => ServeResult.handled (some r.1) RcodeSuccess none

/-- From `K8sCross.ServeDNS`: the entry point reads `Question[0]` of
the request unconditionally; the access is modelled by the
`Option`-returning head lookup of the question section. -/
def serveDNSMsg (e : K8sCross) (listResult : Except String (List Node))
    (writeResult : Option String) (questions : List DnsQuestion) : Option ServeResult :=
  match questions.head? with
  | none => none
  | some q => some (serveDNS e listResult writeResult q.Name q.Qtype)

/-- From `parseConfig` in `setup.go`: the zone list defaults to the
single entry `"."` when the configuration names no zones. -/
def defaultZones (args : List String) : List String :=
  if args.length = 0 then ["."] else args

/-! ### Shared helper lemmas -/

/-- A character list begins with another exactly when it decomposes as
that other list followed by a tail. -/
theorem strStartsAt_iff (l p : List Char) : strStartsAt l p = true ↔ ∃ t, l = p ++ t := by
  induction p generalizing l with
  | nil =>
    simp only [strStartsAt, List.nil_append, true_iff]
    exact ⟨l, rfl⟩
  | cons b bs ih =>
    cases l with
    | nil => simp [strStartsAt]
    | cons a as =>
      simp only [strStartsAt, List.cons_append, List.cons.injEq]
      split_ifs with h
      · simp [h, ih]
      · simp [h]

/-- Contiguous-occurrence characterization of `charsContain`. -/
theorem charsContain_iff (sub l : List Char) :
    charsContain sub l = true ↔ ∃ p q, l = p ++ sub ++ q := by
  induction l with
  | nil =>
    simp only [charsContain, strStartsAt_iff]
    constructor
    · rintro ⟨t, ht⟩
      rcases List.append_eq_nil.mp ht.symm with ⟨h1, h2⟩
      exact ⟨[], [], by simp [h1, h2]⟩
    · rintro ⟨p, q, hpq⟩
      rcases List.append_eq_nil.mp hpq.symm with ⟨h1, h2⟩
      rcases List.append_eq_nil.mp h1 with ⟨h3, h4⟩
      exact ⟨[], by simp [h4]⟩
  | cons c rest ih =>
    simp only [charsContain, Bool.or_eq_true, strStartsAt_iff, ih]
    constructor
    · rintro (⟨t, ht⟩ | ⟨p, q, hpq⟩)
      · exact ⟨[], t, by simp only [List.nil_append]; exact ht⟩
      · exact ⟨c :: p, q, by simp [hpq]⟩
    · rintro ⟨p, q, hpq⟩
      cases p with
      | nil => exact Or.inl ⟨q, by simpa using hpq⟩
      | cons x xs =>
        simp only [List.cons_append, List.cons.injEq] at hpq
        exact Or.inr ⟨xs, q, hpq.2⟩

/-- Substring characterization of the Go `strings.Contains` model. -/
theorem strContains_iff (s t : String) :
    strContains s t = true ↔ ∃ p q, s.data = p ++ t.data ++ q := by
  simpa [strContains] using charsContain_iff t.data s.data

/-- Suffix characterization of the Go `strings.HasSuffix` model. -/
theorem hasSuffix_iff (s t : String) :
    hasSuffix s t = true ↔ ∃ p, s.data = p ++ t.data := by
  simp only [hasSuffix, decide_eq_true_eq]
  constructor
  · rintro ⟨hle, hdrop⟩
    refine ⟨s.data.take (s.data.length - t.data.length), ?_⟩
    conv_lhs => rw [← List.take_append_drop (s.data.length - t.data.length) s.data]
    rw [hdrop]
  · rintro ⟨p, hp⟩
    refine ⟨by rw [hp]; simp, ?_⟩
    rw [hp]
    have hl : (p ++ t.data).length - t.data.length = p.length := by simp
    rw [hl, List.drop_left]

/-- Reading an element past a left factor of an append. -/
theorem getD_append_add (l₁ l₂ : List α) (d : α) (k : Nat) :
    (l₁ ++ l₂).getD (l₁.length + k) d = l₂.getD k d := by
  rw [List.getD_eq_getElem?_getD, List.getD_eq_getElem?_getD,
    List.getElem?_append_right (Nat.le_add_right _ _), Nat.add_sub_cancel_left]

/-- Structural characterization of the accepting runs of
`parsePartsCore`: it yields `(service, ns, true)` exactly when the
label list is some front followed by the five labels
`service, ns, "svc", "clusterset", "local"`. -/
theorem parsePartsCore_iff (parts : List String) (s ns : String) :
    parsePartsCore parts = (s, ns, true) ↔
      ∃ front, parts = front ++ [s, ns, "svc", "clusterset", "local"] := by
  by_cases h5 : parts.length < 5
  · simp only [parsePartsCore, if_pos h5]
    constructor
    · intro h
      simp [Prod.ext_iff] at h
    · rintro ⟨front, rfl⟩
      simp only [List.length_append, List.length_cons, List.length_nil] at h5
      omega
  · have h5' : 5 ≤ parts.length := Nat.le_of_not_lt h5
    obtain ⟨a, b, c, d, e, rest, hrev⟩ :
        ∃ a b c d e rest, parts.reverse = a :: b :: c :: d :: e :: rest := by
      rcases hr : parts.reverse with _ | ⟨a, _ | ⟨b, _ | ⟨c, _ | ⟨d, _ | ⟨e, rest⟩⟩⟩⟩⟩
      all_goals
        first
        | exact ⟨_, _, _, _, _, _, rfl⟩
        | · exfalso
            have hl := congrArg List.length hr
            simp only [List.length_reverse, List.length_cons, List.length_nil] at hl
            omega
    have hparts : parts = rest.reverse ++ [e, d, c, b, a] := by
      have h2 := congrArg List.reverse hrev
      simpa using h2
    have glen : (rest.reverse ++ [e, d, c, b, a] : List String).length
        = rest.reverse.length + 5 := by simp
    have ga : parts.getD (parts.length - 1) "" = a := by
      rw [hparts, glen]
      have hk : rest.reverse.length + 5 - 1 = rest.reverse.length + 4 := by omega
      rw [hk, getD_append_add]
      rfl
    have gb : parts.getD (parts.length - 2) "" = b := by
      rw [hparts, glen]
      have hk : rest.reverse.length + 5 - 2 = rest.reverse.length + 3 := by omega
      rw [hk, getD_append_add]
      rfl
    have gc : parts.getD (parts.length - 3) "" = c := by
      rw [hparts, glen]
      have hk : rest.reverse.length + 5 - 3 = rest.reverse.length + 2 := by omega
      rw [hk, getD_append_add]
      rfl
    have gd : parts.getD (parts.length - 4) "" = d := by
      rw [hparts, glen]
      have hk : rest.reverse.length + 5 - 4 = rest.reverse.length + 1 := by omega
      rw [hk, getD_append_add]
      rfl
    have ge : parts.getD (parts.length - 5) "" = e := by
      rw [hparts, glen]
      have hk : rest.reverse.length + 5 - 5 = rest.reverse.length + 0 := by omega
      rw [hk, getD_append_add]
      rfl
    constructor
    · intro h
      unfold parsePartsCore at h
      rw [if_neg h5] at h
      by_cases hcond : parts.getD (parts.length - 1) "" ≠ "local" ∨
          parts.getD (parts.length - 2) "" ≠ "clusterset" ∨
          parts.getD (parts.length - 3) "" ≠ "svc"
      · rw [if_pos hcond] at h
        simp [Prod.ext_iff] at h
      · rw [if_neg hcond] at h
        push_neg at hcond
        obtain ⟨hlocal, hcs, hsvc⟩ := hcond
        rw [ge, gd] at h
        simp only [Prod.mk.injEq] at h
        obtain ⟨hes, hdns, -⟩ := h
        refine ⟨rest.reverse, ?_⟩
        rw [hparts, hes, hdns, ga.symm.trans hlocal, gb.symm.trans hcs, gc.symm.trans hsvc]
    · rintro ⟨front, hfront⟩
      have hfa : front = rest.reverse ∧
          ([s, ns, "svc", "clusterset", "local"] : List String) = [e, d, c, b, a] := by
        apply List.append_inj' (hfront.symm.trans hparts)
        rfl
      obtain ⟨-, hfive⟩ := hfa
      simp only [List.cons.injEq, and_true] at hfive
      obtain ⟨hse, hnsd, hsvc, hcs, hlocal⟩ := hfive
      unfold parsePartsCore
      rw [if_neg h5, ga, gb, gc, if_neg (by simp [← hlocal, ← hcs, ← hsvc]), ge, gd,
        ← hse, ← hnsd]

/-- The character list of the one-character string used as the
dot separator. -/
theorem dot_data : (".").data = ['.'] := rfl

/-- Trimming the dot suffix from a name with an appended dot recovers
the name. -/
theorem trimSuffix_append_dot (n : String) : trimSuffix (n ++ ".") "." = n := by
  unfold trimSuffix
  rw [if_pos ((hasSuffix_iff _ _).mpr ⟨n.data, by rw [String.data_append]⟩)]
  apply String.ext
  rw [String.data_append, dot_data]
  have hl : (n.data ++ ['.']).length - (['.'] : List Char).length = n.data.length := by
    simp
  rw [hl]
  exact List.take_left n.data ['.']

/-- Trimming a suffix that is not present leaves the string unchanged. -/
theorem trimSuffix_of_not_suffix (s t : String) (h : hasSuffix s t = false) :
    trimSuffix s t = s := by
  unfold trimSuffix
  rw [h]
  rfl

/-- Every exit of `handleClustersetQuery` returns a `nil` error value:
the inventory error is logged and mapped to a server-failure response
code but never propagated. -/
theorem handle_err_none (e : K8sCross) (lr : Except String (List Node))
    (qn : String) (qt : Nat) : (handleClustersetQuery e lr qn qt).2 = none := by
  unfold handleClustersetQuery
  simp only []
  repeat' split
  all_goals rfl

/-- On an inventory error under a name that parses, the response
message carries the server-failure code and the error value is `nil`. -/
theorem handle_inventory_error (e : K8sCross) (qName : String) (qType : Nat)
    (errMsg service ns : String)
    (hparse : parseClusterSetDomain (strToLower qName) = (service, ns, true)) :
    handleClustersetQuery e (.error errMsg) qName qType =
      ({ Rcode := RcodeServerFailure, Authoritative := true, Answer := [] }, none) := by
  unfold handleClustersetQuery
  simp only []
  rw [hparse]
  rfl

/-! ### Claim theorems -/

/-- C1: counterexample.  At an authoritative, parse-valid question with
a failing inventory lookup and a successful response write, `ServeDNS`
writes a server-failure message but returns the success response code
and a `nil` error value — not the underlying inventory error the claim
asserts it propagates. -/
theorem C1_counterexample :
    serveDNS ⟨["clusterset.local"], 300, "default-cluster", "default-clusterset"⟩
      (.error "inventory unreachable") none
      "my-service.my-namespace.svc.clusterset.local." TypeA =
    ServeResult.handled
      (some { Rcode := RcodeServerFailure, Authoritative := true, Answer := [] })
      RcodeSuccess none := by
  decide

/-- C1 (amended): on an authoritative question whose name parses, a
failing inventory lookup makes the engine write a response message
carrying the server-failure response code, while the error value
returned to the caller is `nil` and the returned code is success; the
only authoritative-handling path returning a non-nil error is a failed
response write, whose own error is returned. -/
theorem C1_amended_inventory_error :
    (∀ (e : K8sCross) (qName : String) (qType : Nat) (errMsg service ns : String),
      isClustersetQuery e (strToLower qName) = true →
      parseClusterSetDomain (strToLower qName) = (service, ns, true) →
      serveDNS e (.error errMsg) none qName qType =
        ServeResult.handled
          (some { Rcode := RcodeServerFailure, Authoritative := true, Answer := [] })
          RcodeSuccess none) ∧
    (∀ (e : K8sCross) (listResult : Except String (List Node)) (writeResult : Option String)
      (qName : String) (qType : Nat) (m : Option DnsMsg) (rc : Nat) (msg : String),
      serveDNS e listResult writeResult qName qType = ServeResult.handled m rc (some msg) →
      writeResult = some msg) := by
  constructor
  · intro e qName qType errMsg service ns hzone hparse
    have hh := handle_inventory_error e qName qType errMsg service ns hparse
    simp [serveDNS, hzone, hh]
  · intro e lr wr qName qType m rc msg h
    have hnone := handle_err_none e lr qName qType
    cases hq : isClustersetQuery e (strToLower qName) with
    | false =>
      rw [show serveDNS e lr wr qName qType = ServeResult.delegated from by
        simp [serveDNS, hq]] at h
      cases h
    | true =>
      cases wr with
      | some w =>
        rw [show serveDNS e lr (some w) qName qType =
            ServeResult.handled (some (handleClustersetQuery e lr qName qType).1)
              RcodeServerFailure (some w) from by simp [serveDNS, hq, hnone]] at h
        cases h
        rfl
      | none =>
        rw [show serveDNS e lr none qName qType =
            ServeResult.handled (some (handleClustersetQuery e lr qName qType).1)
              RcodeSuccess none from by simp [serveDNS, hq, hnone]] at h
        cases h

/-- Witness for the amended C1 at a concrete configuration, question
and inventory error. -/
theorem C1_amended_inventory_error_witness :
    serveDNS ⟨["clusterset.local"], 600, "prod-cluster", "production"⟩
      (.error "connection refused") none
      "my-service.my-namespace.svc.clusterset.local." TypeAAAA =
      ServeResult.handled
        (some { Rcode := RcodeServerFailure, Authoritative := true, Answer := [] })
        RcodeSuccess none :=
  C1_amended_inventory_error.1 _ _ TypeAAAA "connection refused" "my-service" "my-namespace"
    (by decide) (by decide)

/-- C2: code bug.  `parseConfig` does default the zone list to the
single entry `"."` when no zones are configured, but under that
default `isClustersetQuery` returns false on an ordinary lowercase,
dot-terminated name: the suffix test degenerates to requiring the
literal suffix `"..."`, so the claimed wildcard "all names" behavior
does not hold. -/
theorem C2_default_zone_failing_input :
    defaultZones [] = ["."] ∧
    isClustersetQuery
      { Zones := defaultZones [], TTL := 300, ClusterName := "default-cluster",
        ClusterSet := "default-clusterset" }
      "my-service.my-namespace.svc.clusterset.local." = false :=
  ⟨rfl, by decide⟩

/-- C3: `isClustersetQuery` returns true exactly when some configured
zone `z` makes `"." + z + "."` a literal suffix of the name; it is a
pure, total Boolean function, and zone strings enter the comparison
exactly as configured. -/
theorem C3_zone_suffix_characterization (e : K8sCross) (n : String) :
    isClustersetQuery e n = true ↔
      ∃ z ∈ e.Zones, ∃ p : String, n = p ++ ("." ++ z ++ ".") := by
  unfold isClustersetQuery
  rw [List.any_eq_true]
  constructor
  · rintro ⟨z, hz, hsuf⟩
    rcases (hasSuffix_iff _ _).mp hsuf with ⟨p, hp⟩
    refine ⟨z, hz, String.mk p, String.ext ?_⟩
    simpa [String.data_append] using hp
  · rintro ⟨z, hz, p, rfl⟩
    exact ⟨z, hz, (hasSuffix_iff _ _).mpr ⟨p.data, by simp [String.data_append]⟩⟩

/-- C4: `parseClusterSetDomain` strips one trailing dot, splits on
dots, and accepts exactly the label lists that end with
`service, namespace, "svc", "clusterset", "local"` (any extra leading
labels silently ignored), returning that service and namespace with
`ok = true`, and rejecting everything else with `ok = false`; in
particular the two concrete examples from the specification. -/
theorem C4_parse_characterization :
    (∀ (name service ns : String),
      parseClusterSetDomain name = (service, ns, true) ↔
        ∃ front, (splitOnChar '.' (trimSuffix name ".").data).map String.mk =
          front ++ [service, ns, "svc", "clusterset", "local"]) ∧
    parseClusterSetDomain "my-service.my-namespace.svc.clusterset.local." =
      ("my-service", "my-namespace", true) ∧
    (parseClusterSetDomain "invalid.domain.com.").2.2 = false :=
  ⟨fun _ s n => parsePartsCore_iff _ s n, by decide, by decide⟩

/-- C5: `findServiceNodes` propagates an inventory error unchanged and
with no node list, otherwise returns exactly the in-order sub-list of
nodes whose case-folded display name contains both case-folded
identity strings as substrings (an empty result comes with a `nil`
error), and on the specification's two-endpoint example it returns
exactly the first endpoint. -/
theorem C5_findServiceNodes_filter :
    (∀ (service ns err : String), findServiceNodes (.error err) service ns = .error err) ∧
    (∀ (service ns : String) (nodes : List Node),
      findServiceNodes (.ok nodes) service ns =
        .ok (nodes.filter (fun node =>
          strContains (strToLower node.Name) (strToLower service) &&
          strContains (strToLower node.Name) (strToLower ns)))) ∧
    (∀ (node : Node) (service ns : String),
      (strContains (strToLower node.Name) (strToLower service) &&
        strContains (strToLower node.Name) (strToLower ns)) = true ↔
        ((∃ p q, (strToLower node.Name).data = p ++ (strToLower service).data ++ q) ∧
         (∃ p q, (strToLower node.Name).data = p ++ (strToLower ns).data ++ q))) ∧
    findServiceNodes
      (.ok [⟨"1", "my-service-node1", ["10.0.0.1", "2001:db8::1"]⟩,
            ⟨"2", "other-service-node2", ["10.0.0.2", "2001:db8::2"]⟩])
      "my-service" "" =
      .ok [⟨"1", "my-service-node1", ["10.0.0.1", "2001:db8::1"]⟩] := by
  refine ⟨fun _ _ _ => rfl, fun _ _ _ => rfl, fun node service ns => ?_, rfl⟩
  rw [Bool.and_eq_true, strContains_iff, strContains_iff]

/-- C6: the A builder emits exactly one record per address string
(taken across all nodes, in order) whose parsed IP has a 4-byte form,
the AAAA builder exactly one per address whose parsed IP has none;
addresses that fail to parse yield no record in either builder; and
every emitted record carries the literal owner name
`service.namespace.svc.clusterset.local.`, the internet class, and the
configured TTL. -/
theorem C6_address_record_builders (e : K8sCross) (nodes : List Node) (service ns : String) :
    buildARecords e nodes service ns =
      (nodes.flatMap Node.IPAddresses).filterMap (fun ipStr =>
        match parseIP ipStr with
        | none => none
        | some ip =>
          if (ipTo4 ip).isSome then
            some (RR.a ⟨ownerName service ns, TypeA, ClassINET, e.TTL⟩ ip)
          else none) ∧
    buildAAAARecords e nodes service ns =
      (nodes.flatMap Node.IPAddresses).filterMap (fun ipStr =>
        match parseIP ipStr with
        | none => none
        | some ip =>
          if (ipTo4 ip).isSome then none
          else some (RR.aaaa ⟨ownerName service ns, TypeAAAA, ClassINET, e.TTL⟩ ip)) ∧
    (buildARecords e nodes service ns).all
      (fun r => decide (rrHeader r = ⟨ownerName service ns, TypeA, ClassINET, e.TTL⟩)) = true ∧
    (buildAAAARecords e nodes service ns).all
      (fun r => decide (rrHeader r = ⟨ownerName service ns, TypeAAAA, ClassINET, e.TTL⟩)) = true := by
  refine ⟨?_, ?_, ?_, ?_⟩
  · rw [List.filterMap_flatMap]
    rfl
  · rw [List.filterMap_flatMap]
    rfl
  · simp only [List.all_eq_true, decide_eq_true_eq]
    intro r hr
    simp only [buildARecords, List.mem_flatMap, List.mem_filterMap] at hr
    obtain ⟨node, -, ipStr, -, hsome⟩ := hr
    cases hip : parseIP ipStr with
    | none => simp [hip] at hsome
    | some ip =>
      simp only [hip] at hsome
      by_cases h4 : (ipTo4 ip).isSome
      · rw [if_pos h4] at hsome
        injection hsome with h
        subst h
        rfl
      · rw [if_neg h4] at hsome
        cases hsome
  · simp only [List.all_eq_true, decide_eq_true_eq]
    intro r hr
    simp only [buildAAAARecords, List.mem_flatMap, List.mem_filterMap] at hr
    obtain ⟨node, -, ipStr, -, hsome⟩ := hr
    cases hip : parseIP ipStr with
    | none => simp [hip] at hsome
    | some ip =>
      simp only [hip] at hsome
      by_cases h4 : (ipTo4 ip).isSome
      · rw [if_pos h4] at hsome
        cases hsome
      · rw [if_neg h4] at hsome
        injection hsome with h
        subst h
        rfl

/-- C7: `buildSRVRecords` returns exactly one SRV record — priority
10, weight 10, port 80, target the literal owner name — whenever the
node list is non-empty, regardless of how many nodes matched, zero
records when it is empty, and an SRV query on a valid name completes
with the success response code (not name-error) either way. -/
theorem C7_srv_single_record :
    (∀ (e : K8sCross) (nodes : List Node) (service ns : String), nodes ≠ [] →
      buildSRVRecords e nodes service ns =
        [RR.srv ⟨"_http._tcp." ++ ownerName service ns, TypeSRV, ClassINET, e.TTL⟩
          10 10 80 (ownerName service ns)]) ∧
    (∀ (e : K8sCross) (service ns : String), buildSRVRecords e [] service ns = []) ∧
    (∀ (e : K8sCross) (listNodes : List Node),
      handleClustersetQuery e (.ok listNodes)
        "my-service.my-namespace.svc.clusterset.local." TypeSRV =
        ({ Rcode := RcodeSuccess, Authoritative := true,
           Answer := buildSRVRecords e
             (listNodes.filter (fun node =>
               strContains (strToLower node.Name) (strToLower "my-service") &&
               strContains (strToLower node.Name) (strToLower "my-namespace")))
             "my-service" "my-namespace" }, none)) := by
  refine ⟨fun e nodes service ns h => ?_, fun e service ns => rfl, fun e listNodes => ?_⟩
  · unfold buildSRVRecords
    rw [if_pos (List.length_pos.mpr h)]
  · rfl

/-- Witness for C7 at a concrete non-empty node list. -/
theorem C7_srv_single_record_witness :
    buildSRVRecords ⟨["clusterset.local"], 300, "default-cluster", "default-clusterset"⟩
      [⟨"1", "my-service-node1", ["10.0.0.1"]⟩] "my-service" "my-namespace" =
      [RR.srv ⟨"_http._tcp." ++ ownerName "my-service" "my-namespace", TypeSRV, ClassINET, 300⟩
        10 10 80 (ownerName "my-service" "my-namespace")] :=
  C7_srv_single_record.1 _ _ "my-service" "my-namespace" (by decide)

/-- C8: on an authoritative question whose name parses and whose
resolution succeeds, a requested record type other than A, AAAA, SRV
and TXT produces an empty answer set with the success response code
(not name-error) and no error value. -/
theorem C8_unsupported_type_empty_success (e : K8sCross) (qName : String) (qType : Nat)
    (nodes : List Node) (service ns : String)
    (hparse : parseClusterSetDomain (strToLower qName) = (service, ns, true))
    (hA : qType ≠ TypeA) (hAAAA : qType ≠ TypeAAAA) (hSRV : qType ≠ TypeSRV)
    (hTXT : qType ≠ TypeTXT) :
    handleClustersetQuery e (.ok nodes) qName qType =
      ({ Rcode := RcodeSuccess, Authoritative := true, Answer := [] }, none) := by
  unfold handleClustersetQuery
  simp only []
  rw [hparse]
  simp [findServiceNodes, hA, hAAAA, hSRV, hTXT]

/-- Witness for C8 at the unsupported MX query type. -/
theorem C8_unsupported_type_empty_success_witness :
    handleClustersetQuery ⟨["clusterset.local"], 300, "default-cluster", "default-clusterset"⟩
      (.ok []) "my-service.my-namespace.svc.clusterset.local." 15 =
      ({ Rcode := RcodeSuccess, Authoritative := true, Answer := [] }, none) :=
  C8_unsupported_type_empty_success _ _ 15 [] "my-service" "my-namespace"
    (by decide) (by decide) (by decide) (by decide) (by decide)

/-- C9: for a name that does not end with a dot, parsing the name and
parsing the name with a trailing dot appended yield identical
`(service, namespace, ok)` triples. -/
theorem C9_trailing_dot_parse_invariant (n : String) (h : hasSuffix n "." = false) :
    parseClusterSetDomain (n ++ ".") = parseClusterSetDomain n := by
  unfold parseClusterSetDomain
  rw [trimSuffix_append_dot, trimSuffix_of_not_suffix n "." h]

/-- Witness for C9 at a concrete name without a trailing dot. -/
theorem C9_trailing_dot_parse_invariant_witness :
    hasSuffix "my-service.my-namespace.svc.clusterset.local" "." = false ∧
    parseClusterSetDomain ("my-service.my-namespace.svc.clusterset.local" ++ ".") =
      parseClusterSetDomain "my-service.my-namespace.svc.clusterset.local" :=
  ⟨by decide, C9_trailing_dot_parse_invariant _ (by decide)⟩

/-- C10: `ServeDNS` reads `Question[0]` unconditionally before any
zone check; under the precondition that the question section is
non-empty the modelled `Option`-returning lookup never misses, and on
an empty question section the access is out of bounds (`none`). -/
theorem C10_question_head_access (e : K8sCross) (lr : Except String (List Node))
    (wr : Option String) :
    (∀ questions : List DnsQuestion, questions ≠ [] →
      (serveDNSMsg e lr wr questions).isSome = true) ∧
    serveDNSMsg e lr wr [] = none := by
  refine ⟨fun questions hq => ?_, rfl⟩
  cases questions with
  | nil => exact absurd rfl hq
  | cons q rest => rfl

/-- Witness for C10 at a concrete one-question message. -/
theorem C10_question_head_access_witness :
    (serveDNSMsg ⟨["clusterset.local"], 300, "default-cluster", "default-clusterset"⟩
      (.ok []) none [⟨"example.com.", 1⟩]).isSome = true :=
  (C10_question_head_access _ _ _).1 _ (by decide)

end K8sCrossSpec
